import Mathlib

/-!
Shallow embedding of the trc20-wallet-bot custodial sweep engine.

Sources embedded:
- WalletManager (wallet module): generateHDWallet, encryptPrivateKey,
  decryptPrivateKey, transferUSDT amount conversion, sweepToMasterWallet.
- Database (db module): createTransaction over a transactions table whose
  tx_hash column is UNIQUE, createAddress, getUserAddresses.
- TRC20WalletServer (server.js): performSweep cycle and sweepStats.
- generate-address flow (server route and bot handler): next derivation
  index is the count of the owner's active addresses.

Decimal balances are modelled as rationals; chain and store I/O is modelled
by explicit outcome parameters (a transfer is accepted with a txid or
rejected, decryption either succeeds or throws).  External libraries
(tronweb, bip39, hdkey, crypto-js AES) are modelled as abstract function
parameters; everything else follows the JavaScript control flow.
-/

namespace TRC20

/-- Token kinds appearing in sweep transactions (code strings USDT / TRX). -/
inductive TokenType where
  | usdt
  | trx
deriving DecidableEq, Repr

/-- Transaction status enum of the transactions table. -/
inductive TxStatus where
  | pending
  | confirmed
  | failed
deriving DecidableEq, Repr

/-- Outcome of a chain transfer submission: the JS call either resolves with
a transaction object carrying a txid, or rejects (throws). -/
inductive TransferOutcome where
  | accepted (txid : String)
  | rejected
deriving DecidableEq, Repr

/-- Configuration read from the environment by the sweep code:
MIN_SWEEP_AMOUNT (parseFloat, default 1), MASTER_ADDRESS and
USDT_CONTRACT_ADDRESS. -/
structure Config where
  minSweep : ℚ
  masterAddress : String
  usdtContract : String
deriving DecidableEq, Repr

/-- Defaults: MIN_SWEEP_AMOUNT unset, so parseFloat(undefined or 1) = 1. -/
def defaultConfig : Config := ⟨1, "TMaster", "TUsdtContract"⟩

/-- transferUSDT converts the decimal amount to contract format:
Math.floor(amount * 1000000) (6 decimals hardcoded). -/
def usdtContractAmount (amount : ℚ) : ℤ := Int.floor (amount * 1000000)

/-- One entry of the transactions array built by sweepToMasterWallet. -/
structure SweepTx where
  tokenType : TokenType
  amount : ℚ
  txHash : String
  status : TxStatus
deriving DecidableEq, Repr

/-- A transfer submission made by sweepToMasterWallet: for USDT both the
decimal amount handed in and the floor-converted raw contract amount. -/
inductive Attempt where
  | usdtCall (decimalAmount : ℚ) (rawAmount : ℤ)
  | trxCall (amount : ℚ)
deriving DecidableEq, Repr

/-- Per-address environment for one sweepToMasterWallet call: whether
decryptPrivateKey succeeds and the outcomes of the two transfer calls. -/
structure SweepEnv where
  decryptOk : Bool
  usdtTransfer : TransferOutcome
  trxTransfer : TransferOutcome
deriving DecidableEq, Repr

/-- Result object of sweepToMasterWallet, extended with the list of
submissions actually attempted (for stating gating properties). -/
structure SweepResult where
  attempts : List Attempt
  transactions : List SweepTx
  totalSwept : ℚ
deriving DecidableEq, Repr

/-- The USDT block of sweepToMasterWallet: gate usdtBalance strictly greater
than MIN_SWEEP_AMOUNT, then trxBalance at least 15 for gas; on a resolved
transfer push a pending USDT record and add usdtBalance to totalSwept; a
rejected transfer is caught and logged only. -/
def usdtSweepPhase (cfg : Config) (outcome : TransferOutcome)
    (usdtBalance trxBalance : ℚ) : List Attempt × List SweepTx × ℚ :=
  if usdtBalance > cfg.minSweep then
    if trxBalance ≥ 15 then
      match outcome with
      | .accepted h =>
        ([.usdtCall usdtBalance (usdtContractAmount usdtBalance)],
          [⟨.usdt, usdtBalance, h, .pending⟩], usdtBalance)
      | .rejected =>
        ([.usdtCall usdtBalance (usdtContractAmount usdtBalance)], [], 0)
    else ([], [], 0)
  else ([], [], 0)

/-- The TRX block of sweepToMasterWallet: sweep trxBalance - 1 (keep 1 TRX
for future gas) whenever that exceeds 0.1; the swept TRX amount is pushed as
a pending record but never added to totalSwept. -/
def trxSweepPhase (outcome : TransferOutcome) (trxBalance : ℚ) :
    List Attempt × List SweepTx :=
  let trxToSweep := trxBalance - 1
  if trxToSweep > 1/10 then
    match outcome with
    | .accepted h => ([.trxCall trxToSweep], [⟨.trx, trxToSweep, h, .pending⟩])
    | .rejected => ([.trxCall trxToSweep], [])
  else ([], [])

/-- WalletManager.sweepToMasterWallet: decrypt the private key (a failure
there escapes through the outer catch, which rethrows), read balances, run
the USDT phase then the TRX phase, and return address transactions and
totalSwept. -/
def sweepToMasterWallet (cfg : Config) (env : SweepEnv)
    (usdtBalance trxBalance : ℚ) : Except Unit SweepResult :=
  if env.decryptOk then
    let p1 := usdtSweepPhase cfg env.usdtTransfer usdtBalance trxBalance
    let p2 := trxSweepPhase env.trxTransfer trxBalance
    .ok ⟨p1.1 ++ p2.1, p1.2.1 ++ p2.2, p1.2.2⟩
  else .error ()

/-! ## Database layer (db module) -/

/-- A row of the transactions table.  The tx_hash column is UNIQUE. -/
structure TxRecord where
  addressId : Nat
  txHash : String
  fromAddress : String
  toAddress : String
  amount : ℚ
  tokenContract : Option String
  txType : String
  status : TxStatus
deriving DecidableEq, Repr

/-- The transactions table, in insertion order. -/
abbrev DB := List TxRecord

/-- Database.createTransaction: a plain INSERT.  When a row with the same
tx_hash already exists the UNIQUE constraint makes the INSERT fail; the JS
catch logs the error and rethrows it, so the caller sees an error. -/
def createTransaction (db : DB) (r : TxRecord) : Except Unit DB :=
  if db.any fun t => t.txHash == r.txHash then .error ()
  else .ok (db ++ [r])

/-! ## Sweep cycle (server.js performSweep) -/

/-- The address row fields performSweep uses. -/
structure AddressRow where
  id : Nat
  address : String
  userId : Nat
deriving DecidableEq, Repr

/-- One active address as seen by a cycle: its row, the balances the two
getAccountInfo reads observe (the model reads are stable within the cycle),
and the chain and decryption outcomes for its sweep. -/
structure AddressCase where
  row : AddressRow
  usdtBalance : ℚ
  trxBalance : ℚ
  env : SweepEnv
deriving DecidableEq, Repr

/-- The transactions-table row performSweep inserts for one sweep entry. -/
def txToRecord (cfg : Config) (row : AddressRow) (tx : SweepTx) : TxRecord :=
  ⟨row.id, tx.txHash, row.address, cfg.masterAddress, tx.amount,
    (if tx.tokenType = .usdt then some cfg.usdtContract else none),
    "sweep", tx.status⟩

/-- The recording loop of performSweep: insert each sweep entry in turn;
a createTransaction error aborts the loop (the remaining entries are not
inserted) and is reported to the per-address catch as false. -/
def recordAll (cfg : Config) (row : AddressRow) (db : DB) :
    List SweepTx → DB × Bool
  | [] => (db, true)
  | tx :: rest =>
    match createTransaction db (txToRecord cfg row tx) with
    | .ok db2 => recordAll cfg row db2 rest
    | .error _ => (db, false)

/-- What processing one address contributes to the cycle. -/
structure AddrOutcome where
  db : DB
  sweptAmount : ℚ
  transactions : List SweepTx
  attempts : List Attempt
  errorIncrement : Nat
deriving DecidableEq, Repr

/-- The per-address body of performSweep: gate on usdtBalance at least
MIN_SWEEP_AMOUNT, call sweepToMasterWallet, and when it returned any
transactions add totalSwept and record every entry.  Any exception escaping
to the per-address catch (a decryption failure rethrown by
sweepToMasterWallet, or a createTransaction failure) increments the cycle
error count by one; note that totalSwept was already added before the
recording loop, so a recording failure keeps the added amount. -/
def processAddress (cfg : Config) (db : DB) (a : AddressCase) : AddrOutcome :=
  if a.usdtBalance ≥ cfg.minSweep then
    match sweepToMasterWallet cfg a.env a.usdtBalance a.trxBalance with
    | .error _ => ⟨db, 0, [], [], 1⟩
    | .ok r =>
      if r.transactions = [] then ⟨db, 0, [], r.attempts, 0⟩
      else
        match recordAll cfg a.row db r.transactions with
        | (db2, true) => ⟨db2, r.totalSwept, r.transactions, r.attempts, 0⟩
        | (db2, false) => ⟨db2, r.totalSwept, r.transactions, r.attempts, 1⟩
  else ⟨db, 0, [], [], 0⟩

/-- The loop of performSweep over all active addresses, accumulating the
database, totalSweptAmount, sweepTransactions and errorCount. -/
def runCycle (cfg : Config) (db : DB) :
    List AddressCase → DB × ℚ × List SweepTx × Nat
  | [] => (db, 0, [], 0)
  | a :: rest =>
    let o := processAddress cfg db a
    let r := runCycle cfg o.db rest
    (r.1, o.sweptAmount + r.2.1, o.transactions ++ r.2.2.1,
      o.errorIncrement + r.2.2.2)

/-- Process-wide sweepStats counters (lastSweepTime, a wall-clock string,
is not modelled). -/
structure SweepStats where
  totalSwept : ℚ
  sweepCount : Nat
  errors : Nat
deriving DecidableEq, Repr

/-- TRC20WalletServer.performSweep: run the cycle over the active addresses
and update sweepStats (running total swept, cycle count, error count). -/
def performSweep (cfg : Config) (stats : SweepStats) (db : DB)
    (addrs : List AddressCase) : SweepStats × DB × List SweepTx :=
  let r := runCycle cfg db addrs
  (⟨stats.totalSwept + r.2.1, stats.sweepCount + 1, stats.errors + r.2.2.2⟩,
    r.1, r.2.2.1)

/-! ## HD wallet derivation (WalletManager.generateHDWallet) -/

/-- The BIP44 derivation path the code builds: the template has hardened
purpose 44, hardened coin type 195 (TRON), hardened account 0, change 0, and
the caller's derivation index as the address-index component — the only
component that varies. -/
structure DerivPath where
  purpose : Nat
  coinType : Nat
  account : Nat
  change : Nat
  addressIndex : Int
deriving DecidableEq, Repr

/-- The fixed path template with the given index substituted. -/
def derivationPath (index : Int) : DerivPath := ⟨44, 195, 0, 0, index⟩

/-- Abstraction of the external libraries used by generateHDWallet:
deriveKey composes bip39.mnemonicToSeedSync, HDKey.fromMasterSeed and
HDKey.derive (it may throw, e.g. on an index outside the valid range), and
addressFromKey is tronWeb.address.fromPrivateKey. -/
structure HDLib (Key Addr : Type) where
  deriveKey : String → DerivPath → Except Unit Key
  addressFromKey : Key → Addr

/-- Return value of generateHDWallet. -/
structure WalletData (Key Addr : Type) where
  address : Addr
  privateKey : Key
  derivationIndex : Int
  path : DerivPath

/-- WalletManager.generateHDWallet: read HD_WALLET_MNEMONIC from the
environment; when it is absent (undefined or the empty string, both falsy)
the code generates a brand-new random mnemonic and proceeds with it instead
of failing.  It then derives the child key along the fixed path and builds
the TRON address; any error thrown by the libraries is logged and rethrown
unchanged. -/
def generateHDWallet {Key Addr : Type} (lib : HDLib Key Addr)
    (envMnemonic : Option String) (freshMnemonic : String) (index : Int) :
    Except Unit (WalletData Key Addr) :=
  let mnemonic :=
    match envMnemonic with
    | none => freshMnemonic
    | some m => if m = "" then freshMnemonic else m
  match lib.deriveKey mnemonic (derivationPath index) with
  | .error e => .error e
  | .ok k => .ok ⟨lib.addressFromKey k, k, index, derivationPath index⟩

/-- A concrete instantiation of the library abstraction used to evaluate
the derivation flow on closed inputs: keys and addresses are the derivation
paths themselves and derivation always succeeds. -/
def toyHDLib : HDLib DerivPath DerivPath := ⟨fun _ p => .ok p, id⟩

/-! ## Private-key encryption (crypto-js AES, OpenSSL format) -/

/-- Abstraction of the raw symmetric cipher: encrypt and decrypt a message
under a derived key. -/
structure SymCipher (K M C : Type) where
  enc : K → M → C
  dec : K → C → M

/-- A CryptoJS.AES passphrase ciphertext in OpenSSL format: the fresh
random salt of the call is embedded alongside the encrypted body (the
serialized string starts with Salted__ followed by the salt). -/
structure AESCiphertext (S C : Type) where
  salt : S
  body : C
deriving DecidableEq, Repr

/-- WalletManager.encryptPrivateKey: CryptoJS.AES.encrypt(privateKey,
this.encryptionKey) — draw a fresh salt, derive the key from the passphrase
and salt (EVP KDF), encrypt, and serialize salt plus body. -/
def encryptPrivateKey {K M C S : Type} (cipher : SymCipher K M C)
    (kdf : String → S → K) (passphrase : String) (salt : S) (pk : M) :
    AESCiphertext S C :=
  ⟨salt, cipher.enc (kdf passphrase salt) pk⟩

/-- WalletManager.decryptPrivateKey: CryptoJS.AES.decrypt re-derives the
key from the passphrase and the salt embedded in the ciphertext and
decrypts the body. -/
def decryptPrivateKey {K M C S : Type} (cipher : SymCipher K M C)
    (kdf : String → S → K) (passphrase : String) (ct : AESCiphertext S C) :
    M :=
  cipher.dec (kdf passphrase ct.salt) ct.body

/-! ## Address allocation (server route and bot handler) -/

/-- A row of the addresses table (fields the allocation flow touches). -/
structure StoredAddress where
  ownerId : Nat
  address : String
  derivationIndex : Nat
  label : String
  isActive : Bool
deriving DecidableEq, Repr

/-- The addresses table, in insertion order. -/
abbrev AddressStore := List StoredAddress

/-- Database.getUserAddresses: the owner's rows with is_active = TRUE. -/
def getUserAddresses (store : AddressStore) (ownerId : Nat) :
    List StoredAddress :=
  store.filter fun a => (a.ownerId == ownerId) && a.isActive

/-- A generate-address request: owner, the derived chain address, and the
optional label supplied by the caller. -/
structure GenRequest where
  ownerId : Nat
  address : String
  label : Option String
deriving DecidableEq, Repr

/-- The generate-address flow (API route and bot handler agree): the next
derivation index is the count of the owner's existing active addresses, and
the new row is inserted with is_active defaulting to TRUE. -/
def generateAddressOp (store : AddressStore) (req : GenRequest) :
    AddressStore :=
  let idx := (getUserAddresses store req.ownerId).length
  store ++ [⟨req.ownerId, req.address,
    idx, req.label.getD ("Address " ++ toString (idx + 1)), true⟩]

/-- A sequence of generate-address requests applied in order. -/
def runGenerates (store : AddressStore) : List GenRequest → AddressStore
  | [] => store
  | req :: rest => runGenerates (generateAddressOp store req) rest

/-! ## Helper predicates and concrete scenarios -/

/-- Recognizes a USDT (fungible-token) transfer submission. -/
def isUsdtCall : Attempt → Bool
  | .usdtCall _ _ => true
  | .trxCall _ => false

/-- Recognizes a TRX (native-token) transfer submission. -/
def isTrxCall : Attempt → Bool
  | .usdtCall _ _ => false
  | .trxCall _ => true

/-- Two rows of the same owner never share a derivation index. -/
def sameOwnerDistinctIndex (a b : StoredAddress) : Prop :=
  a.ownerId = b.ownerId → a.derivationIndex ≠ b.derivationIndex

/-- Invariant of the addresses table under the generate-address flow:
every row is active, every row's index is below the owner's current active
count, and same-owner rows have pairwise distinct indices. -/
def StoreInv (store : AddressStore) : Prop :=
  (∀ a ∈ store, a.isActive = true) ∧
  (∀ a ∈ store, a.derivationIndex < (getUserAddresses store a.ownerId).length) ∧
  store.Pairwise sameOwnerDistinctIndex

/-- End-to-end scenario of the spec: token balance 120.5, native balance
20, decryption and both transfers succeed. -/
def endToEndCase : AddressCase :=
  ⟨⟨7, "TAddrOne", 55⟩, 120.5, 20, ⟨true, .accepted "hashUsdt", .accepted "hashTrx"⟩⟩

/-- Boundary scenario for the fungible gate: token balance exactly equal to
the default MIN_SWEEP_AMOUNT of 1, ample gas. -/
def boundaryGateCase : AddressCase :=
  ⟨⟨7, "TAddrOne", 55⟩, 1, 20, ⟨true, .accepted "hashUsdt", .accepted "hashTrx"⟩⟩

/-- Gas-gating scenario of the spec: token balance 5, native balance 10. -/
def gasGateCase : AddressCase :=
  ⟨⟨7, "TAddrOne", 55⟩, 5, 10, ⟨true, .accepted "hashUsdt", .accepted "hashTrx"⟩⟩

/-- An address with no fungible balance but native balance 20. -/
def nativeOnlyCase : AddressCase :=
  ⟨⟨7, "TAddrOne", 55⟩, 0, 20, ⟨true, .accepted "hashUsdt", .accepted "hashTrx"⟩⟩

/-- Dust-floor scenario of the spec: native balance 1.05, residual 0.05. -/
def dustFloorCase : AddressCase :=
  ⟨⟨9, "TAddrTwo", 56⟩, 120.5, 1.05, ⟨true, .accepted "hashUsdt", .accepted "hashTrx"⟩⟩

/-- An address whose two transfer submissions are both rejected by the
chain while decryption succeeds. -/
def rejectedTransferCase : AddressCase :=
  ⟨⟨7, "TAddrOne", 55⟩, 120.5, 20, ⟨true, .rejected, .rejected⟩⟩

/-- A stored sweep record used to exercise the tx_hash UNIQUE constraint. -/
def dupRecord : TxRecord :=
  ⟨7, "hashDup", "TAddrOne", "TMaster", 5, none, "sweep", .pending⟩

/-- A concrete raw cipher (identity on the message) used to evaluate the
encryption wrappers on closed inputs. -/
def idCipher : SymCipher Nat String String := ⟨fun _ m => m, fun _ c => c⟩

/-! ## Theorems -/

/-- C1 counterexample: in the end-to-end scenario (token balance 120.5,
native balance 20, everything succeeding) the cycle's totalSwept stat does
not increase by 139.5: the TRX branch of sweepToMasterWallet never adds the
native amount to totalSwept. -/
theorem sweep_totalSwept_not_sum_counterexample :
    (performSweep defaultConfig ⟨0, 0, 0⟩ [] [endToEndCase]).1.totalSwept ≠
      (139.5 : ℚ) := by
  norm_num +decide [performSweep, runCycle, processAddress,
    sweepToMasterWallet, usdtSweepPhase, trxSweepPhase, recordAll,
    createTransaction, txToRecord, endToEndCase, rejectedTransferCase,
    defaultConfig]

/-- C1 (amended): in the end-to-end scenario a fungible sweep of 120.5 is
submitted and recorded pending, then a native sweep of 19 is submitted and
recorded pending, and the cycle's totalSwept stat increases by 120.5 — the
fungible amount only, because the native amount is never added to
totalSwept. -/
theorem sweep_end_to_end_scenario :
    performSweep defaultConfig ⟨0, 0, 0⟩ [] [endToEndCase] =
      (⟨120.5, 1, 0⟩,
        [⟨7, "hashUsdt", "TAddrOne", "TMaster", 120.5, some "TUsdtContract",
            "sweep", .pending⟩,
          ⟨7, "hashTrx", "TAddrOne", "TMaster", 19, none, "sweep", .pending⟩],
        [⟨.usdt, 120.5, "hashUsdt", .pending⟩,
          ⟨.trx, 19, "hashTrx", .pending⟩]) := by
  norm_num +decide [performSweep, runCycle, processAddress,
    sweepToMasterWallet, usdtSweepPhase, trxSweepPhase, recordAll,
    createTransaction, txToRecord, endToEndCase, rejectedTransferCase,
    defaultConfig]

/-- C2 counterexample: recording the same transaction record a second time
is not a safe no-op — createTransaction surfaces the UNIQUE-constraint
violation as an error to the caller (the JS catch rethrows). -/
theorem createTransaction_duplicate_errors_counterexample :
    createTransaction [dupRecord] dupRecord = .error () := rfl

/-- C2 (amended): a second createTransaction call with an already-recorded
txHash leaves exactly one stored record carrying that hash (the INSERT is
refused by the UNIQUE constraint) but propagates the constraint violation
as an error to the caller instead of being a no-op. -/
theorem createTransaction_second_call (db : DB) (r s : TxRecord)
    (hfresh : (db.any fun t => t.txHash == r.txHash) = false)
    (hs : s.txHash = r.txHash) :
    createTransaction db r = .ok (db ++ [r]) ∧
    createTransaction (db ++ [r]) s = .error () ∧
    ((db ++ [r]).countP fun t => t.txHash == r.txHash) = 1 := by
  refine ⟨by simp [createTransaction, hfresh], ?_, ?_⟩
  · simp only [createTransaction, List.any_append, List.any_cons, List.any_nil,
      hs, beq_self_eq_true, Bool.true_or, Bool.or_true, if_true]
  · rw [List.countP_append]
    have h0 : db.countP (fun t => t.txHash == r.txHash) = 0 := by
      rw [List.countP_eq_zero]
      intro t ht
      have := List.any_eq_false.mp hfresh t ht
      simpa using this
    simp [h0]

/-- C2 witness: concrete instance of the amended recording property. -/
theorem createTransaction_second_call_witness :
    createTransaction [] dupRecord = .ok [dupRecord] ∧
    createTransaction [dupRecord] dupRecord = .error () ∧
    ([dupRecord].countP fun t => t.txHash == dupRecord.txHash) = 1 := by
  have h := createTransaction_second_call [] dupRecord dupRecord rfl rfl
  simpa using h

/-- Helper: with decryption succeeding, the transfer submissions made while
processing one address are those of the two sweep phases, provided the outer
usdtBalance gate of performSweep passes, and none otherwise. -/
lemma processAddress_attempts (cfg : Config) (db : DB) (a : AddressCase)
    (hd : a.env.decryptOk = true) :
    (processAddress cfg db a).attempts =
      if a.usdtBalance ≥ cfg.minSweep then
        (usdtSweepPhase cfg a.env.usdtTransfer a.usdtBalance a.trxBalance).1 ++
          (trxSweepPhase a.env.trxTransfer a.trxBalance).1
      else [] := by
  by_cases hb : a.usdtBalance ≥ cfg.minSweep
  · rw [if_pos hb]
    unfold processAddress sweepToMasterWallet
    rw [hd, if_pos hb, if_pos rfl]
    dsimp only
    split_ifs with h1
    · rfl
    · rcases hrec : recordAll cfg a.row db
        ((usdtSweepPhase cfg a.env.usdtTransfer a.usdtBalance a.trxBalance).2.1
          ++ (trxSweepPhase a.env.trxTransfer a.trxBalance).2) with ⟨db2, b⟩
      cases b <;> simp [hrec]
  · rw [if_neg hb]
    unfold processAddress
    rw [if_neg hb]

/-- C3 counterexample: at a token balance exactly equal to the default
minSweep of 1 (with ample gas), the claim's gate (tokenBalance at least
minSweep and nativeBalance at least 15) holds, yet no fungible-token sweep
is submitted: the inner gate of sweepToMasterWallet is strict. -/
theorem usdt_gate_boundary_counterexample :
    boundaryGateCase.usdtBalance ≥ defaultConfig.minSweep ∧
    boundaryGateCase.trxBalance ≥ 15 ∧
    ((processAddress defaultConfig [] boundaryGateCase).attempts.any
      isUsdtCall) = false := by
  refine ⟨by norm_num [boundaryGateCase, defaultConfig],
    by norm_num [boundaryGateCase], ?_⟩
  norm_num +decide [processAddress, sweepToMasterWallet, usdtSweepPhase,
    trxSweepPhase, recordAll, createTransaction, txToRecord, isUsdtCall,
    boundaryGateCase, defaultConfig]

/-- C3 (amended): in a sweep cycle an address with successful decryption
gets a fungible-token sweep submitted if and only if its token balance is
STRICTLY greater than minSweep (default 1) and its native balance is at
least the gas reserve 15; when the gas gate fails the address is simply
skipped for the cycle (no attempt, no retry). -/
theorem usdt_sweep_gate (cfg : Config) (db : DB) (a : AddressCase)
    (hd : a.env.decryptOk = true) :
    ((processAddress cfg db a).attempts.any isUsdtCall) = true ↔
      a.usdtBalance > cfg.minSweep ∧ a.trxBalance ≥ 15 := by
  obtain ⟨row, u, t, env⟩ := a
  obtain ⟨d, uo, tr⟩ := env
  dsimp only at hd
  subst hd
  rw [processAddress_attempts cfg db ⟨row, u, t, ⟨true, uo, tr⟩⟩ rfl]
  dsimp only
  by_cases hb : u ≥ cfg.minSweep
  · rw [if_pos hb]
    unfold usdtSweepPhase trxSweepPhase
    dsimp only
    cases uo <;> cases tr <;> split_ifs <;> simp_all [isUsdtCall]
  · rw [if_neg hb]
    simp only [List.any_nil, Bool.false_eq_true, false_iff]
    rintro ⟨h1, h2⟩
    exact hb (le_of_lt h1)

/-- C3 witness: the spec's gas-gating scenario (token balance 5, native
balance 10) produces zero fungible-token transfer submissions, by the gate
theorem. -/
theorem usdt_sweep_gate_witness :
    ((processAddress defaultConfig [] gasGateCase).attempts.any isUsdtCall)
      = false := by
  have h := usdt_sweep_gate defaultConfig [] gasGateCase rfl
  by_contra hc
  have h2 := h.mp (by simpa using hc)
  norm_num [gasGateCase, defaultConfig] at h2

/-- C4 counterexample: an address with no fungible balance and native
balance 20 gets NO native sweep in the cycle, although the claimed residual
condition 20 - 1 > 0.1 holds — performSweep only invokes
sweepToMasterWallet when the fungible balance reaches minSweep, so the
native decision is not independent of the fungible balance. -/
theorem native_sweep_requires_usdt_counterexample :
    nativeOnlyCase.trxBalance - 1 > 1/10 ∧
    (processAddress defaultConfig [] nativeOnlyCase).attempts = [] := by
  constructor
  · norm_num [nativeOnlyCase]
  · norm_num +decide [processAddress, sweepToMasterWallet, usdtSweepPhase,
      trxSweepPhase, recordAll, createTransaction, txToRecord,
      nativeOnlyCase, defaultConfig]

/-- C4 (amended): in a sweep cycle an address with successful decryption
gets a native-token sweep submitted if and only if its token balance
reaches minSweep (performSweep's outer gate) AND the residual
nativeBalance - dustReserve exceeds the 0.1 floor; inside
sweepToMasterWallet the native decision ignores the fungible gates, but at
cycle level it is not independent of the fungible balance; any submitted
native amount equals nativeBalance - 1. -/
theorem trx_sweep_gate (cfg : Config) (db : DB) (a : AddressCase)
    (hd : a.env.decryptOk = true) :
    (((processAddress cfg db a).attempts.any isTrxCall) = true ↔
      a.usdtBalance ≥ cfg.minSweep ∧ a.trxBalance - 1 > 1/10) ∧
    (∀ amt, Attempt.trxCall amt ∈ (processAddress cfg db a).attempts →
      amt = a.trxBalance - 1) := by
  obtain ⟨row, u, t, env⟩ := a
  obtain ⟨d, uo, tr⟩ := env
  dsimp only at hd
  subst hd
  rw [processAddress_attempts cfg db ⟨row, u, t, ⟨true, uo, tr⟩⟩ rfl]
  dsimp only
  by_cases hb : u ≥ cfg.minSweep
  · rw [if_pos hb]
    unfold usdtSweepPhase trxSweepPhase
    dsimp only
    constructor
    · cases uo <;> cases tr <;> split_ifs <;> simp_all [isTrxCall]
    · intro amt hmem
      cases uo <;> cases tr <;> split_ifs at hmem <;> simp_all
  · rw [if_neg hb]
    constructor
    · simp only [List.any_nil, Bool.false_eq_true, false_iff]
      rintro ⟨h1, h2⟩
      exact hb h1
    · intro amt hmem
      simp at hmem

/-- C4 witness: the spec's dust-floor scenario (native balance 1.05,
residual 0.05 below the 0.1 floor) produces no native sweep, by the gate
theorem. -/
theorem trx_sweep_gate_witness :
    ((processAddress defaultConfig [] dustFloorCase).attempts.any isTrxCall)
      = false := by
  have h := trx_sweep_gate defaultConfig [] dustFloorCase rfl
  by_contra hc
  have h2 := h.1.mp (by simpa using hc)
  norm_num [dustFloorCase, defaultConfig] at h2

/-- C5 counterexample: an address whose two transfer submissions are both
rejected contributes zero to the cycle's error count, not one — the
rejections are swallowed by the inner catches of sweepToMasterWallet. -/
theorem rejected_transfer_uncounted_counterexample :
    (processAddress defaultConfig [] rejectedTransferCase).attempts ≠ [] ∧
    (performSweep defaultConfig ⟨0, 0, 0⟩ [] [rejectedTransferCase]).1.errors
      = 0 := by
  constructor <;>
  norm_num +decide [performSweep, runCycle, processAddress,
    sweepToMasterWallet, usdtSweepPhase, trxSweepPhase, recordAll,
    createTransaction, txToRecord, endToEndCase, rejectedTransferCase,
    defaultConfig]

/-- C5 (amended): an exception escaping to the per-address boundary of
performSweep (for instance a decryption failure rethrown by
sweepToMasterWallet) is caught, increments the cycle's error count by
exactly one, and leaves the processing of every remaining address — its
database writes, swept total and recorded transactions — unchanged; but a
rejected transfer submission is swallowed inside sweepToMasterWallet and
contributes zero to the error count. -/
theorem per_address_failure_isolation :
    (∀ (cfg : Config) (db : DB) (a : AddressCase) (rest : List AddressCase),
      a.env.decryptOk = false → a.usdtBalance ≥ cfg.minSweep →
      runCycle cfg db (a :: rest) =
        ((runCycle cfg db rest).1, (runCycle cfg db rest).2.1,
          (runCycle cfg db rest).2.2.1, 1 + (runCycle cfg db rest).2.2.2)) ∧
    (∀ (cfg : Config) (db : DB) (a : AddressCase),
      a.env.decryptOk = true → a.env.usdtTransfer = .rejected →
      a.env.trxTransfer = .rejected →
      (processAddress cfg db a).errorIncrement = 0) := by
  constructor
  · intro cfg db a rest hdec hbal
    have hpa : processAddress cfg db a = ⟨db, 0, [], [], 1⟩ := by
      unfold processAddress sweepToMasterWallet
      rw [hdec, if_pos hbal]
      rfl
    simp only [runCycle, hpa]
    simp
  · intro cfg db a hdec hu ht
    unfold processAddress sweepToMasterWallet usdtSweepPhase trxSweepPhase
    rw [hdec, hu, ht]
    dsimp only
    split_ifs <;> simp_all

/-- C5 witness: concrete instance — a decryption failure on the first
address is counted once and the second address is still swept, and a
rejected transfer contributes zero errors. -/
theorem per_address_failure_isolation_witness :
    runCycle defaultConfig []
        [⟨⟨3, "TAddrBad", 50⟩, 120.5, 20, ⟨false, .rejected, .rejected⟩⟩,
          endToEndCase] =
      ((runCycle defaultConfig [] [endToEndCase]).1,
        (runCycle defaultConfig [] [endToEndCase]).2.1,
        (runCycle defaultConfig [] [endToEndCase]).2.2.1,
        1 + (runCycle defaultConfig [] [endToEndCase]).2.2.2) ∧
    (processAddress defaultConfig [] rejectedTransferCase).errorIncrement
      = 0 := by
  exact ⟨per_address_failure_isolation.1 defaultConfig []
      ⟨⟨3, "TAddrBad", 50⟩, 120.5, 20, ⟨false, .rejected, .rejected⟩⟩
      [endToEndCase] rfl (by norm_num [defaultConfig]),
    per_address_failure_isolation.2 defaultConfig [] rejectedTransferCase
      rfl rfl rfl⟩

/-- C7 counterexample: with the seed absent from the environment,
generateHDWallet does not fail — it generates a brand-new mnemonic and
returns an address derived from it. -/
theorem absent_seed_produces_address_counterexample :
    generateHDWallet toyHDLib none "fresh words" 0 =
      .ok ⟨derivationPath 0, derivationPath 0, 0, derivationPath 0⟩ := rfl

/-- C7 (amended): when the environment mnemonic is absent (undefined or
empty, both falsy in the source), generateHDWallet silently substitutes a
freshly generated mnemonic and derives from it, returning an address
whenever the library derivation succeeds; a library error (for example an
invalid derivation index) propagates unchanged, with no DerivationError
wrapper. -/
theorem generateHDWallet_absent_seed {Key Addr : Type} (lib : HDLib Key Addr)
    (envMnemonic : Option String) (freshMnemonic : String) (index : Int)
    (habsent : envMnemonic = none ∨ envMnemonic = some "") :
    generateHDWallet lib envMnemonic freshMnemonic index =
      (match lib.deriveKey freshMnemonic (derivationPath index) with
        | .error e => .error e
        | .ok k => .ok ⟨lib.addressFromKey k, k, index, derivationPath index⟩) := by
  rcases habsent with h | h <;> subst h <;> simp [generateHDWallet]

/-- C7 witness: concrete instance of the amended absent-seed behavior. -/
theorem generateHDWallet_absent_seed_witness :
    generateHDWallet toyHDLib none "zoo" 3 =
      .ok ⟨derivationPath 3, derivationPath 3, 3, derivationPath 3⟩ :=
  (generateHDWallet_absent_seed toyHDLib none "zoo" 3 (Or.inl rfl)).trans rfl

/-- C8: private-key encryption round-trips — decrypting an encryption of a
key under the same process-wide passphrase returns the key, given the raw
cipher's correctness — and two encryptions under distinct fresh salts yield
different ciphertexts, since the salt is embedded in the OpenSSL-format
output. -/
theorem encrypt_decrypt_roundtrip_and_fresh {K M C S : Type}
    (cipher : SymCipher K M C) (kdf : String → S → K) (passphrase : String)
    (hcipher : ∀ k m, cipher.dec k (cipher.enc k m) = m) :
    (∀ (salt : S) (pk : M),
      decryptPrivateKey cipher kdf passphrase
        (encryptPrivateKey cipher kdf passphrase salt pk) = pk) ∧
    (∀ (s1 s2 : S) (pk : M), s1 ≠ s2 →
      encryptPrivateKey cipher kdf passphrase s1 pk ≠
        encryptPrivateKey cipher kdf passphrase s2 pk) := by
  constructor
  · intro salt pk
    simpa [decryptPrivateKey, encryptPrivateKey] using hcipher (kdf passphrase salt) pk
  · intro s1 s2 pk hne heq
    exact hne (congrArg AESCiphertext.salt heq)

/-- C8 witness: concrete instance with an explicit raw cipher. -/
theorem encrypt_decrypt_roundtrip_witness :
    decryptPrivateKey idCipher (fun _ _ => 0) "secret"
      (encryptPrivateKey idCipher (fun _ _ => 0) "secret" 1 "privkey")
      = "privkey" ∧
    encryptPrivateKey idCipher (fun _ _ => 0) "secret" 1 "privkey" ≠
      encryptPrivateKey idCipher (fun _ _ => 0) "secret" 2 "privkey" := by
  have h := encrypt_decrypt_roundtrip_and_fresh idCipher
    (fun (_ : String) (_ : Nat) => (0 : Nat)) "secret"
    (fun (_ : Nat) (_ : String) => rfl)
  exact ⟨h.1 1 "privkey", h.2 1 2 "privkey" (by decide)⟩

/-- Helper: appending one row to the addresses table extends an owner's
active rows by that row exactly when it is active and owned by them. -/
lemma getUserAddresses_append (store : AddressStore) (x : StoredAddress)
    (o : Nat) :
    getUserAddresses (store ++ [x]) o =
      getUserAddresses store o ++
        (if (x.ownerId == o) && x.isActive then [x] else []) := by
  unfold getUserAddresses
  rw [List.filter_append, List.filter_singleton, Bool.cond_eq_ite]

/-- Helper: the empty addresses table satisfies the allocation invariant. -/
lemma storeInv_nil : StoreInv [] :=
  ⟨by simp, by simp, List.Pairwise.nil⟩

/-- Helper: one generate-address operation preserves the allocation
invariant — the new row's index is the owner's current active count, which
is strictly larger than every existing index of that owner. -/
lemma storeInv_generate (store : AddressStore) (req : GenRequest)
    (h : StoreInv store) : StoreInv (generateAddressOp store req) := by
  obtain ⟨hact, hbound, hpair⟩ := h
  unfold generateAddressOp StoreInv
  dsimp only
  refine ⟨?_, ?_, ?_⟩
  · intro a ha
    rw [List.mem_append] at ha
    rcases ha with ha | ha
    · exact hact a ha
    · simp only [List.mem_singleton] at ha
      subst ha
      rfl
  · intro a ha
    rw [getUserAddresses_append, List.length_append]
    rw [List.mem_append] at ha
    rcases ha with ha | ha
    · have h1 := hbound a ha
      omega
    · simp only [List.mem_singleton] at ha
      subst ha
      simp
  · rw [List.pairwise_append]
    refine ⟨hpair, List.pairwise_singleton _ _, ?_⟩
    intro a ha y hy
    simp only [List.mem_singleton] at hy
    subst hy
    intro hown
    have hb := hbound a ha
    rw [hown] at hb
    dsimp only at hb ⊢
    omega

/-- Helper: any run of generate-address operations preserves the
allocation invariant. -/
lemma storeInv_run (ops : List GenRequest) (store : AddressStore)
    (h : StoreInv store) : StoreInv (runGenerates store ops) := by
  induction ops generalizing store with
  | nil => exact h
  | cons req rest ih => exact ih _ (storeInv_generate store req h)

/-- C6: derivation indices are unique and monotonically assigned per owner:
each generate-address operation allocates the next index as the count of
the owner's existing (active) addresses, and therefore after any sequence
of generate operations starting from an empty store, no two addresses of
the same owner share a derivation index. -/
theorem derivation_index_unique :
    (∀ (store : AddressStore) (req : GenRequest),
      generateAddressOp store req = store ++
        [⟨req.ownerId, req.address,
          (getUserAddresses store req.ownerId).length,
          req.label.getD ("Address " ++
            toString ((getUserAddresses store req.ownerId).length + 1)),
          true⟩]) ∧
    (∀ ops : List GenRequest,
      (runGenerates [] ops).Pairwise sameOwnerDistinctIndex) :=
  ⟨fun _ _ => rfl, fun ops => (storeInv_run ops [] storeInv_nil).2.2⟩

/-- C6 witness: two generations for the same owner yield rows with
pairwise distinct derivation indices. -/
theorem derivation_index_unique_witness :
    (runGenerates []
        [⟨55, "TAddrOne", none⟩, ⟨55, "TAddrTwo", none⟩]).Pairwise
      sameOwnerDistinctIndex :=
  derivation_index_unique.2 [⟨55, "TAddrOne", none⟩, ⟨55, "TAddrTwo", none⟩]

/-- C9: for a fixed non-empty environment mnemonic, generateHDWallet is
deterministic — the freshly generated fallback mnemonic is ignored, so two
calls at the same index agree exactly; given collision-freeness of the
library derivation and address construction, distinct indices yield
distinct addresses; and the derivation-path template is fixed with only
the address-index component varying. -/
theorem derive_deterministic_and_distinct {Key Addr : Type}
    (lib : HDLib Key Addr) (m : String) (hm : m ≠ "")
    (hkey : ∀ p q k, lib.deriveKey m p = .ok k →
      lib.deriveKey m q = .ok k → p = q)
    (haddr : Function.Injective lib.addressFromKey) :
    (∀ (f1 f2 : String) (i : Int),
      generateHDWallet lib (some m) f1 i =
        generateHDWallet lib (some m) f2 i) ∧
    (∀ (f : String) (i j : Int) (wi wj : WalletData Key Addr), i ≠ j →
      generateHDWallet lib (some m) f i = .ok wi →
      generateHDWallet lib (some m) f j = .ok wj →
      wi.address ≠ wj.address) ∧
    (∀ i : Int, (derivationPath i).purpose = 44 ∧
      (derivationPath i).coinType = 195 ∧ (derivationPath i).account = 0 ∧
      (derivationPath i).change = 0 ∧ (derivationPath i).addressIndex = i) := by
  refine ⟨?_, ?_, fun i => ⟨rfl, rfl, rfl, rfl, rfl⟩⟩
  · intro f1 f2 i
    simp [generateHDWallet, hm]
  · intro f i j wi wj hij hi hj heq
    unfold generateHDWallet at hi hj
    dsimp only at hi hj
    rw [if_neg hm] at hi hj
    rcases hki : lib.deriveKey m (derivationPath i) with e | ki <;>
      rw [hki] at hi
    · exact absurd hi (by simp)
    rcases hkj : lib.deriveKey m (derivationPath j) with e | kj <;>
      rw [hkj] at hj
    · exact absurd hj (by simp)
    cases hi
    cases hj
    have hk : ki = kj := haddr heq
    have hp : derivationPath i = derivationPath j :=
      hkey _ _ _ hki (hk ▸ hkj)
    exact hij (congrArg DerivPath.addressIndex hp)

/-- C9 witness: concrete instance — the fallback mnemonic does not affect
the result, and the addresses derived at indices 0 and 1 differ. -/
theorem derive_deterministic_and_distinct_witness :
    generateHDWallet toyHDLib (some "seed sentence") "x" 0 =
      generateHDWallet toyHDLib (some "seed sentence") "y" 0 ∧
    (⟨derivationPath 0, derivationPath 0, 0, derivationPath 0⟩ :
        WalletData DerivPath DerivPath).address ≠
      (⟨derivationPath 1, derivationPath 1, 1, derivationPath 1⟩ :
        WalletData DerivPath DerivPath).address := by
  have hkey : ∀ p q k, toyHDLib.deriveKey "seed sentence" p = .ok k →
      toyHDLib.deriveKey "seed sentence" q = .ok k → p = q := by
    intro p q k hp hq
    simp [toyHDLib] at hp hq
    rw [hp, hq]
  have h := derive_deterministic_and_distinct toyHDLib "seed sentence"
    (by decide) hkey (fun a b hab => hab)
  exact ⟨h.1 "x" "y" 0, h.2.1 "x" 0 1 _ _ (by decide) rfl rfl⟩

/-- C10: when a fungible sweep happens, the raw on-chain amount is
floor(balance * 10^6) base units while the recorded SweepTransaction
carries the unrounded decimal balance; whenever the balance is not an
exact multiple of 10^-6, the recorded amount (in base units) strictly
exceeds the transferred amount, by less than one base unit. -/
theorem recorded_exceeds_transferred (cfg : Config) (env : SweepEnv)
    (bal trx : ℚ) (hash : String)
    (hd : env.decryptOk = true) (hu : env.usdtTransfer = .accepted hash)
    (hgate : bal > cfg.minSweep) (hgas : trx ≥ 15)
    (hfrac : Int.fract (bal * 1000000) ≠ 0) :
    ∃ r : SweepResult, sweepToMasterWallet cfg env bal trx = .ok r ∧
      r.attempts.head? = some (.usdtCall bal (usdtContractAmount bal)) ∧
      r.transactions.head? = some ⟨.usdt, bal, hash, .pending⟩ ∧
      ((usdtContractAmount bal : ℚ) < bal * 1000000 ∧
        bal * 1000000 - (usdtContractAmount bal : ℚ) < 1) := by
  have hsw : sweepToMasterWallet cfg env bal trx =
      .ok ⟨(.usdtCall bal (usdtContractAmount bal)) ::
            (trxSweepPhase env.trxTransfer trx).1,
          (⟨.usdt, bal, hash, .pending⟩ : SweepTx) ::
            (trxSweepPhase env.trxTransfer trx).2, bal⟩ := by
    unfold sweepToMasterWallet usdtSweepPhase
    rw [hd, hu, if_pos rfl, if_pos hgate, if_pos hgas]
    rfl
  have hpos : 0 < Int.fract (bal * 1000000) :=
    lt_of_le_of_ne (Int.fract_nonneg _) (Ne.symm hfrac)
  have hlt : Int.fract (bal * 1000000) < 1 := Int.fract_lt_one _
  unfold Int.fract at hpos hlt
  refine ⟨_, hsw, rfl, rfl, ?_, ?_⟩
  · unfold usdtContractAmount
    linarith
  · unfold usdtContractAmount
    linarith

/-- C10 witness: concrete instance at balance 10/3, whose product with
10^6 is not an integer. -/
theorem recorded_exceeds_transferred_witness :
    ∃ r : SweepResult,
      sweepToMasterWallet defaultConfig
          ⟨true, .accepted "hashU", .accepted "hashT"⟩ (10/3) 20 = .ok r ∧
      r.attempts.head? = some (.usdtCall (10/3) (usdtContractAmount (10/3))) ∧
      r.transactions.head? = some ⟨.usdt, 10/3, "hashU", .pending⟩ ∧
      ((usdtContractAmount (10/3) : ℚ) < (10/3) * 1000000 ∧
        (10/3) * 1000000 - (usdtContractAmount (10/3) : ℚ) < 1) :=
  recorded_exceeds_transferred defaultConfig _ (10/3) 20 "hashU" rfl rfl
    (by norm_num [defaultConfig]) (by norm_num)
    (by rw [Int.fract]; norm_num)

end TRC20
